import Mathlib

/-!
Verification of the neon-serde conversion layer.

The repository bridges Rust values implementing serde's `Serialize` /
`Deserialize` and JavaScript values held by the neon runtime.  This file
shallowly embeds the Rust sources:

* `src/errors.rs` — the shared `Error` enumeration, its `snafu`-generated
  `Display` renderings, the `ser::Error` / `de::Error` customization hooks
  and the `From<Throw>` conversion;
* `src/lib.rs` — the `ResultExt::throw` adapter translating internal
  results into the host's success/throw convention.

The serializer (`src/ser.rs`) and deserializer (`src/de.rs`) modules are
declared by `lib.rs` but their sources are not part of the repository
snapshot; the definitions for them below are modelled from the
specification (sections 3, 4.1 and 4.2) and are marked as such in their
doc comments.

Modelling conventions: machine strings are Lean `String`s, `usize`/`u32`
payloads are `Nat`s (they are only displayed, never computed with),
JavaScript numbers are exact rationals (`Rat`; the spec's float64
representability concerns are outside the claims checked here), and
`snafu` backtraces — pure diagnostics attached to every variant — are
omitted from the embedding.
-/

namespace NeonSerde

/-- Model of neon's `Throw`: an opaque pending JavaScript exception.  The
conversion core never inspects it; only its `Display` rendering is ever
used, so the model carries exactly that rendering. -/
structure Throw where
  display : String
deriving DecidableEq

/-- The shared error enumeration of `src/errors.rs` (lines 9–83), one
constructor per Rust variant, with the same payloads minus the `snafu`
backtraces. -/
inductive Error where
  | StringTooLong (len : Nat)
  | UnableToCoerce (to_type : String)
  | EmptyString
  | StringTooLongForChar (len : Nat)
  | ExpectingNull
  | InvalidKeyType (key : String)
  | ArrayIndexOutOfBounds (index : Nat) (length : Nat)
  | Js (thrown : Throw)
  | CastError
  | Serde (msg : String)
  | NotImplemented (name : String)
deriving DecidableEq

/-- The `Display` rendering generated by the `snafu(display(...))`
attributes in `src/errors.rs`. -/
def Error.display : Error → String
  | .StringTooLong len => "String too long for NodeJS, len: " ++ toString len
  | .UnableToCoerce t => "Unable to coerce value to type: " ++ t
  | .EmptyString => "Attempted to deserialize from an empty string"
  | .StringTooLongForChar len =>
      "String too long to be a char expected len: 1, got " ++ toString len
  | .ExpectingNull => "Found unexpected non-null type when deserializing"
  | .InvalidKeyType key => "Error when deserializing enum, found key: '" ++ key ++ "'"
  | .ArrayIndexOutOfBounds index length =>
      "ArrayIndexOutOfBounds: attempted access to (" ++ toString index ++
        ") when size: (" ++ toString length ++ ")"
  | .Js t => "JS exception: " ++ t.display
  | .CastError => "Unable to convert something to f64"
  | .Serde msg => "Error occurred while (de)serializing: " ++ msg
  | .NotImplemented name => "Deserialization not implemented for " ++ name

/-- Model of `<Error as ser::Error>::custom` (`src/errors.rs` lines 87–94): builds
`Serde { msg: msg.to_string() }`.  The displayable argument is modelled by
its type together with its `Display` rendering function. -/
def Error.serCustom {T : Type} (displayFn : T → String) (m : T) : Error :=
  .Serde (displayFn m)

/-- Model of `<Error as de::Error>::custom` (`src/errors.rs` lines 96–103): builds
`Serde { msg: msg.to_string() }`, identically to the `ser` side. -/
def Error.deCustom {T : Type} (displayFn : T → String) (m : T) : Error :=
  .Serde (displayFn m)

/-- Model of `impl From<Throw> for Error` (`src/errors.rs` lines 105–109): wraps a
host exception as `Js { throw }`. -/
def Error.fromThrow (t : Throw) : Error :=
  .Js t

/-- A host-level thrown exception as produced by `cx.throw_error(msg)`: a
fresh JavaScript `Error` carrying a message.  `NeonResult<T>` is then the
host's success/throw convention. -/
structure ThrownError where
  message : String
deriving DecidableEq

/-- The host's success/throw result convention (`NeonResult<T>`), with the
pending exception represented by the thrown error value. -/
abbrev NeonResult (T : Type) : Type := Except ThrownError T

/-- Model of `cx.throw_error(msg)`: throw a new host error with message `msg`. -/
def throwHostError {T : Type} (msg : String) : NeonResult T :=
  .error ⟨msg⟩

/-- Model of `ResultExt::throw` (`src/lib.rs` lines 86–93): `Ok` passes through
unchanged, `Err(e)` becomes `cx.throw_error(e.to_string())`. -/
def ResultExt.throw {T : Type} : Except Error T → NeonResult T
  | .ok t => .ok t
  | .error e => throwHostError e.display

/-- Modelled from the spec: the external (JavaScript) value model of §3 —
`null | undefined | boolean | number | string | array | object` — standing
in for neon's `JsValue` handles; the repository's `ser.rs`/`de.rs` sources
that manipulate the handles are not in the snapshot.  Numbers are exact
rationals, objects are ordered association lists with string keys. -/
inductive JsValue where
  | null
  | undefined
  | boolean (b : Bool)
  | number (q : Rat)
  | string (s : String)
  | array (elems : List JsValue)
  | object (entries : List (String × JsValue))

/-- Modelled from the spec: the structured (serde) data model of §3 that
the missing `ser.rs`/`de.rs` walk via the visitor protocol.  Integer
widths are collapsed to `Int` (the width bounds live in `Shape.int`),
floats are exact rationals, map keys are already coerced to strings. -/
inductive SValue where
  | unit
  | bool (b : Bool)
  | int (n : Int)
  | float (q : Rat)
  | char (c : Char)
  | str (s : String)
  | option (o : Option SValue)
  | seq (xs : List SValue)
  | tuple (xs : List SValue)
  | map (entries : List (String × SValue))
  | strct (fields : List (String × SValue))
  | enumUnit (variant : String)
  | enumNewtype (variant : String) (v : SValue)
  | enumTuple (variant : String) (xs : List SValue)
  | enumStruct (variant : String) (fields : List (String × SValue))

mutual

/-- Modelled from the spec: the static shape (target type description) a
serde visitor communicates to the deserializer — §3's list of supported
structured shapes.  `int lo hi` carries the range of the concrete integer
width. -/
inductive Shape where
  | unit
  | bool
  | int (lo hi : Int)
  | float
  | char
  | str
  | opt (s : Shape)
  | seq (s : Shape)
  | tuple (ss : List Shape)
  | map (s : Shape)
  | strct (fields : List (String × Shape))
  | enum (variants : List (String × VariantShape))

/-- Modelled from the spec: the four enum variant forms of §3 (unit,
newtype, tuple, struct). -/
inductive VariantShape where
  | unit
  | newtype (s : Shape)
  | tupleV (ss : List Shape)
  | structV (fields : List (String × Shape))

end

/-- Holds when the association list binds no key twice (JavaScript object
keys are unique). -/
def keysNodup {α : Type} : List (String × α) → Bool
  | [] => true
  | (k, _) :: rest => !(rest.any (fun p => p.1 == k)) && keysNodup rest

/-- First variant shape bound to `name` in an enum's variant list. -/
def findVariant (name : String) : List (String × VariantShape) → Option VariantShape
  | [] => none
  | (k, vs) :: rest => if k == name then some vs else findVariant name rest

/-- First value bound to `name` in a JavaScript object (property get). -/
def jsLookup (name : String) : List (String × JsValue) → Option JsValue
  | [] => none
  | (k, v) :: rest => if k == name then some v else jsLookup name rest

/-- The host's hardcoded maximum string length (V8's
`String::kMaxLength`); strings beyond it fail `StringTooLong`. -/
def maxStringLength : Nat := 536870888

mutual

/-- Modelled from the spec: the serializer of §4.1 (the missing
`src/ser.rs`) — for every structured shape, construct the corresponding
external value: scalars directly (over-long strings fail `StringTooLong`),
`None` and unit as `null`, sequences/tuples as arrays in order,
maps/structs as objects with keys preserved, unit variants as the variant
name string, and payload-carrying variants as a one-key object mapping
the variant name to the serialized payload. -/
def serialize : SValue → Except Error JsValue
  | .unit => .ok .null
  | .bool b => .ok (.boolean b)
  | .int n => .ok (.number (n : Rat))
  | .float q => .ok (.number q)
  | .char c => .ok (.string (String.singleton c))
  | .str s =>
      if s.length ≤ maxStringLength then .ok (.string s)
      else .error (.StringTooLong s.length)
  | .option none => .ok .null
  | .option (some v) => serialize v
  | .seq xs => do .ok (.array (← serializeElems xs))
  | .tuple xs => do .ok (.array (← serializeElems xs))
  | .map entries => do .ok (.object (← serializeEntries entries))
  | .strct fields => do .ok (.object (← serializeEntries fields))
  | .enumUnit name => .ok (.string name)
  | .enumNewtype name v => do .ok (.object [(name, ← serialize v)])
  | .enumTuple name xs => do .ok (.object [(name, .array (← serializeElems xs))])
  | .enumStruct name fields => do .ok (.object [(name, .object (← serializeEntries fields))])

/-- Serialize the elements of a sequence or tuple in order. -/
def serializeElems : List SValue → Except Error (List JsValue)
  | [] => .ok []
  | x :: xs => do .ok ((← serialize x) :: (← serializeElems xs))

/-- Serialize the entries of a map or struct in order, keys preserved. -/
def serializeEntries : List (String × SValue) → Except Error (List (String × JsValue))
  | [] => .ok []
  | (k, v) :: rest => do .ok ((k, ← serialize v) :: (← serializeEntries rest))

end

mutual

/-- Modelled from the spec: a structured value inhabits a shape — the
side condition under which the visitor for that shape can have produced
the value (§3's mapping table).  Integer values must lie in the width's
range; map keys must be unique (JavaScript object keys are); enum values
must name a variant of the shape with a payload of the variant's form. -/
def hasShape : SValue → Shape → Bool
  | .unit, .unit => true
  | .bool _, .bool => true
  | .int n, .int lo hi => decide (lo ≤ n) && decide (n ≤ hi)
  | .float _, .float => true
  | .char _, .char => true
  | .str _, .str => true
  | .option none, .opt _ => true
  | .option (some v), .opt s => hasShape v s
  | .seq xs, .seq s => hasShapeAll xs s
  | .tuple xs, .tuple ss => hasShapeZip xs ss
  | .map entries, .map s => keysNodup entries && hasShapeVals entries s
  | .strct fields, .strct fs => hasShapeFields fields fs
  | .enumUnit name, .enum variants =>
      match findVariant name variants with
      | some .unit => true
      | _ => false
  | .enumNewtype name v, .enum variants =>
      match findVariant name variants with
      | some (.newtype s) => hasShape v s
      | _ => false
  | .enumTuple name xs, .enum variants =>
      match findVariant name variants with
      | some (.tupleV ss) => hasShapeZip xs ss
      | _ => false
  | .enumStruct name fields, .enum variants =>
      match findVariant name variants with
      | some (.structV fs) => hasShapeFields fields fs
      | _ => false
  | _, _ => false
termination_by v _ => sizeOf v

/-- Every element of a sequence inhabits the element shape. -/
def hasShapeAll : List SValue → Shape → Bool
  | [], _ => true
  | x :: xs, s => hasShape x s && hasShapeAll xs s
termination_by xs _ => sizeOf xs

/-- Tuple components inhabit the component shapes position by position
(in particular the arities agree). -/
def hasShapeZip : List SValue → List Shape → Bool
  | [], [] => true
  | x :: xs, s :: ss => hasShape x s && hasShapeZip xs ss
  | _, _ => false
termination_by xs _ => sizeOf xs

/-- Every map entry's value inhabits the value shape. -/
def hasShapeVals : List (String × SValue) → Shape → Bool
  | [], _ => true
  | (_, v) :: rest, s => hasShape v s && hasShapeVals rest s
termination_by entries _ => sizeOf entries

/-- Struct fields carry the declared names in declaration order and each
value inhabits the declared field shape. -/
def hasShapeFields : List (String × SValue) → List (String × Shape) → Bool
  | [], [] => true
  | (k, v) :: rest, (k', s) :: rest' => k == k' && hasShape v s && hasShapeFields rest rest'
  | _, _ => false
termination_by fields _ => sizeOf fields

end

/-- An option payload shape whose serialized form can never be `null` or
`undefined`: unit serializes to `null` and a nested option's `None` does,
so either inside `Option` would collapse `Some`/`None` on the way back —
such shapes are not losslessly representable (spec §3 and §4.2's
`null`/`undefined` → `None` rule). -/
def optPayloadOk : Shape → Bool
  | .unit => false
  | .opt _ => false
  | _ => true

mutual

/-- Modelled from the spec: the shapes for which round-tripping is the
identity (§8 "for all representable shapes").  Option payloads must not
themselves serialize to `null`/`undefined`, and declared struct field
names and enum variant names must be distinct so that key lookup on the
serialized object is unambiguous. -/
def supported : Shape → Bool
  | .unit => true
  | .bool => true
  | .int _ _ => true
  | .float => true
  | .char => true
  | .str => true
  | .opt s => optPayloadOk s && supported s
  | .seq s => supported s
  | .tuple ss => supportedAll ss
  | .map s => supported s
  | .strct fields => keysNodup fields && supportedFields fields
  | .enum variants => keysNodup variants && supportedVariants variants
termination_by s => sizeOf s

/-- All component shapes are supported. -/
def supportedAll : List Shape → Bool
  | [] => true
  | s :: ss => supported s && supportedAll ss
termination_by ss => sizeOf ss

/-- All declared field shapes are supported. -/
def supportedFields : List (String × Shape) → Bool
  | [] => true
  | (_, s) :: rest => supported s && supportedFields rest
termination_by fields => sizeOf fields

/-- All declared variant payload shapes are supported. -/
def supportedVariants : List (String × VariantShape) → Bool
  | [] => true
  | (_, vs) :: rest => supportedVariant vs && supportedVariants rest
termination_by variants => sizeOf variants

/-- A variant payload form is supported. -/
def supportedVariant : VariantShape → Bool
  | .unit => true
  | .newtype s => supported s
  | .tupleV ss => supportedAll ss
  | .structV fields => keysNodup fields && supportedFields fields
termination_by vs => sizeOf vs

end

mutual

/-- Modelled from the spec: the deserializer of §4.2 (the missing
`src/de.rs`) — dispatch on the external value's runtime kind against the
requested shape.  Booleans coerce from `null`/`undefined`/numbers;
unit/option-absence accept only `null`/`undefined`; chars need a
one-character string; numbers are range-checked; sequences need arrays
and structs/maps need objects (unknown object properties are ignored);
unit enum variants come from bare strings, payload variants from a
one-key object, any other enum input failing `InvalidKeyType`. -/
def deserialize : Shape → JsValue → Except Error SValue
  | .unit, jv =>
      match jv with
      | .null => .ok .unit
      | .undefined => .ok .unit
      | _ => .error .ExpectingNull
  | .bool, jv =>
      match jv with
      | .boolean b => .ok (.bool b)
      | .null => .ok (.bool false)
      | .undefined => .ok (.bool false)
      | .number q => .ok (.bool (if q = 0 then false else true))
      | _ => .error (.UnableToCoerce "bool")
  | .int lo hi, jv =>
      match jv with
      | .number q =>
          if q.den = 1 ∧ lo ≤ q.num ∧ q.num ≤ hi then .ok (.int q.num)
          else .error .CastError
      | _ => .error .CastError
  | .float, jv =>
      match jv with
      | .number q => .ok (.float q)
      | _ => .error .CastError
  | .char, jv =>
      match jv with
      | .string s =>
          match s.data with
          | [] => .error .EmptyString
          | [c] => .ok (.char c)
          | _ => .error (.StringTooLongForChar s.length)
      | _ => .error (.UnableToCoerce "char")
  | .str, jv =>
      match jv with
      | .string s => .ok (.str s)
      | _ => .error (.UnableToCoerce "string")
  | .opt s, jv =>
      match jv with
      | .null => .ok (.option none)
      | .undefined => .ok (.option none)
      | other => do .ok (.option (some (← deserialize s other)))
  | .seq s, jv =>
      match jv with
      | .array elems => do .ok (.seq (← deserializeElems s elems))
      | _ => .error (.UnableToCoerce "sequence")
  | .tuple ss, jv =>
      match jv with
      | .array elems => do .ok (.tuple (← deserializeTupleElems ss elems 0 elems.length))
      | _ => .error (.UnableToCoerce "tuple")
  | .map s, jv =>
      match jv with
      | .object entries => do .ok (.map (← deserializeMapEntries s entries))
      | _ => .error (.UnableToCoerce "map")
  | .strct fields, jv =>
      match jv with
      | .object entries => do .ok (.strct (← deserializeFields fields entries))
      | _ => .error (.UnableToCoerce "struct")
  | .enum variants, jv =>
      match jv with
      | .string name =>
          match findVariant name variants with
          | some .unit => .ok (.enumUnit name)
          | _ => .error (.Serde ("unknown variant " ++ name))
      | .object [(key, payload)] => deserializeEnumEntry variants key payload
      | .object _ => .error (.InvalidKeyType "")
      | _ => .error (.InvalidKeyType "")
termination_by s jv => sizeOf s + sizeOf jv
decreasing_by
  all_goals simp_wf
  all_goals omega

/-- Scan the declared variant list for the key of the one-key enum object
and deserialize the associated payload (the search mirrors `findVariant`).
An unmatched key is a framework-level (`Serde`) unknown-variant error. -/
def deserializeEnumEntry :
    List (String × VariantShape) → String → JsValue → Except Error SValue
  | [], key, _ => .error (.Serde ("unknown variant " ++ key))
  | (name, vs) :: rest, key, payload =>
      if name == key then deserializeVariantPayload key vs payload
      else deserializeEnumEntry rest key payload
termination_by variants _ payload => sizeOf variants + sizeOf payload
decreasing_by
  all_goals simp_wf
  all_goals omega

/-- Deserialize the payload of the selected enum variant: direct for a
newtype variant, as an array for a tuple variant, as an object for a
struct variant; a unit variant's payload must be `null`/`undefined`. -/
def deserializeVariantPayload :
    String → VariantShape → JsValue → Except Error SValue
  | key, .unit, payload =>
      match payload with
      | .null => .ok (.enumUnit key)
      | .undefined => .ok (.enumUnit key)
      | _ => .error .ExpectingNull
  | key, .newtype s, payload => do .ok (.enumNewtype key (← deserialize s payload))
  | key, .tupleV ss, payload =>
      match payload with
      | .array elems => do
          .ok (.enumTuple key (← deserializeTupleElems ss elems 0 elems.length))
      | _ => .error (.UnableToCoerce "enum tuple variant")
  | key, .structV fields, payload =>
      match payload with
      | .object flds => do .ok (.enumStruct key (← deserializeFields fields flds))
      | _ => .error (.UnableToCoerce "enum struct variant")
termination_by _ vs payload => sizeOf vs + sizeOf payload
decreasing_by
  all_goals simp_wf
  all_goals omega

/-- Deserialize every array element against the element shape. -/
def deserializeElems (s : Shape) : List JsValue → Except Error (List SValue)
  | [] => .ok []
  | jv :: rest => do .ok ((← deserialize s jv) :: (← deserializeElems s rest))
termination_by jvs => sizeOf s + sizeOf jvs
decreasing_by
  all_goals simp_wf
  all_goals omega

/-- Deserialize tuple components position by position; running out of
array elements while components remain is the out-of-bounds access of
§4.2, reported as `ArrayIndexOutOfBounds{index, length}`. -/
def deserializeTupleElems :
    List Shape → List JsValue → Nat → Nat → Except Error (List SValue)
  | [], _, _, _ => .ok []
  | _ :: _, [], idx, len => .error (.ArrayIndexOutOfBounds idx len)
  | s :: ss, jv :: rest, idx, len => do
      .ok ((← deserialize s jv) :: (← deserializeTupleElems ss rest (idx + 1) len))
termination_by ss jvs _ _ => sizeOf ss + sizeOf jvs
decreasing_by
  all_goals simp_wf
  all_goals omega

/-- Deserialize every object entry's value against the map value shape,
keys preserved in order. -/
def deserializeMapEntries (s : Shape) :
    List (String × JsValue) → Except Error (List (String × SValue))
  | [] => .ok []
  | (k, v) :: rest => do
      .ok ((k, ← deserialize s v) :: (← deserializeMapEntries s rest))
termination_by entries => sizeOf s + sizeOf entries
decreasing_by
  all_goals simp_wf
  all_goals omega

/-- Deserialize the declared fields in declaration order, each by property
lookup on the source object; properties not named by a declared field are
ignored, a declared field missing from the object is a framework-level
(`Serde`) error. -/
def deserializeFields :
    List (String × Shape) → List (String × JsValue) → Except Error (List (String × SValue))
  | [], _ => .ok []
  | (name, s) :: rest, entries => do
      .ok ((name, ← deserializeField name s entries) :: (← deserializeFields rest entries))
termination_by fields entries => sizeOf fields + sizeOf entries
decreasing_by
  all_goals simp_wf
  all_goals omega

/-- Property get of one declared field on the source object (the search
mirrors `jsLookup`) followed by deserialization at the field's shape; a
declared field missing from the object is a framework-level (`Serde`)
error. -/
def deserializeField (name : String) (s : Shape) :
    List (String × JsValue) → Except Error SValue
  | [] => .error (.Serde ("missing field " ++ name))
  | (k, v) :: rest =>
      if k == name then deserialize s v else deserializeField name s rest
termination_by entries => sizeOf s + sizeOf entries
decreasing_by
  all_goals simp_wf
  all_goals omega

end

/-- The round-trip property of one structured value: at every supported
shape it inhabits, deserializing its serialization returns it exactly. -/
def RT (v : SValue) : Prop :=
  ∀ sh, supported sh = true → hasShape v sh = true →
    ∀ j, serialize v = .ok j → deserialize sh j = .ok v

/-- Field deserialization is property lookup followed by deserialization
at the declared shape. -/
theorem deserializeField_eq_lookup (name : String) (s : Shape) :
    ∀ entries, deserializeField name s entries =
      match jsLookup name entries with
      | some v => deserialize s v
      | none => .error (.Serde ("missing field " ++ name)) := by
  intro entries
  induction entries with
  | nil => simp [deserializeField, jsLookup]
  | cons e rest ih =>
    obtain ⟨k, v⟩ := e
    simp only [deserializeField, jsLookup]
    split <;> simp [ih]

/-- Enum-entry deserialization is variant lookup followed by payload
deserialization at the found variant form. -/
theorem deserializeEnumEntry_eq_find (key : String) (payload : JsValue) :
    ∀ variants, deserializeEnumEntry variants key payload =
      match findVariant key variants with
      | some vs => deserializeVariantPayload key vs payload
      | none => .error (.Serde ("unknown variant " ++ key)) := by
  intro variants
  induction variants with
  | nil => simp [deserializeEnumEntry, findVariant]
  | cons e rest ih =>
    obtain ⟨name, vs⟩ := e
    simp only [deserializeEnumEntry, findVariant]
    split <;> simp [ih]

/-- A variant found in a supported variant list is itself supported. -/
theorem findVariant_supportedVariant :
    ∀ (variants : List (String × VariantShape)), supportedVariants variants = true →
      ∀ name vs, findVariant name variants = some vs → supportedVariant vs = true := by
  intro variants
  induction variants with
  | nil => intro _ name vs h; simp [findVariant] at h
  | cons e rest ih =>
    intro hsup name vs h
    obtain ⟨k, w⟩ := e
    simp only [supportedVariants, Bool.and_eq_true] at hsup
    simp only [findVariant] at h
    split at h
    · cases h; exact hsup.1
    · exact ih hsup.2 name vs h

/-- A value of a shape allowed inside `Option` never serializes to `null`
or `undefined` (so `Some` survives the trip). -/
theorem serialize_not_nullish (v : SValue) (s : Shape) (hok : optPayloadOk s = true)
    (hsh : hasShape v s = true) (j : JsValue) (hser : serialize v = .ok j) :
    j ≠ .null ∧ j ≠ .undefined := by
  cases v with
  | unit =>
    cases s <;> simp [hasShape] at hsh
    simp [optPayloadOk] at hok
  | option o =>
    cases o <;> cases s <;> simp [hasShape] at hsh <;> simp [optPayloadOk] at hok
  | bool b =>
    simp [serialize] at hser
    subst hser
    simp
  | int n =>
    simp [serialize] at hser
    subst hser
    simp
  | float q =>
    simp [serialize] at hser
    subst hser
    simp
  | char c =>
    simp [serialize] at hser
    subst hser
    simp
  | str s2 =>
    simp only [serialize] at hser
    split at hser
    · simp at hser; subst hser; simp
    · simp at hser
  | seq xs =>
    simp only [serialize] at hser
    cases h1 : serializeElems xs <;> rw [h1] at hser <;> simp [bind, Except.bind] at hser
    subst hser
    simp
  | tuple xs =>
    simp only [serialize] at hser
    cases h1 : serializeElems xs <;> rw [h1] at hser <;> simp [bind, Except.bind] at hser
    subst hser
    simp
  | map entries =>
    simp only [serialize] at hser
    cases h1 : serializeEntries entries <;> rw [h1] at hser <;>
      simp [bind, Except.bind] at hser
    subst hser
    simp
  | strct fields =>
    simp only [serialize] at hser
    cases h1 : serializeEntries fields <;> rw [h1] at hser <;>
      simp [bind, Except.bind] at hser
    subst hser
    simp
  | enumUnit name =>
    simp [serialize] at hser
    subst hser
    simp
  | enumNewtype name w =>
    simp only [serialize] at hser
    cases h1 : serialize w <;> rw [h1] at hser <;> simp [bind, Except.bind] at hser
    subst hser
    simp
  | enumTuple name xs =>
    simp only [serialize] at hser
    cases h1 : serializeElems xs <;> rw [h1] at hser <;> simp [bind, Except.bind] at hser
    subst hser
    simp
  | enumStruct name fields =>
    simp only [serialize] at hser
    cases h1 : serializeEntries fields <;> rw [h1] at hser <;>
      simp [bind, Except.bind] at hser
    subst hser
    simp

/-- Sequence elements round-trip elementwise. -/
theorem elems_rt (s : Shape) (hsup : supported s = true) :
    ∀ (xs : List SValue), (∀ x ∈ xs, RT x) → hasShapeAll xs s = true →
      ∀ js, serializeElems xs = .ok js → deserializeElems s js = .ok xs := by
  intro xs
  induction xs with
  | nil =>
    intro _ _ js h
    simp [serializeElems] at h
    subst h
    simp [deserializeElems]
  | cons x rest ih =>
    intro IH hall js h
    simp only [hasShapeAll, Bool.and_eq_true] at hall
    simp only [serializeElems] at h
    cases h1 : serialize x with
    | error e => rw [h1] at h; simp [bind, Except.bind] at h
    | ok jx =>
      cases h2 : serializeElems rest with
      | error e => rw [h1, h2] at h; simp [bind, Except.bind] at h
      | ok jrest =>
        rw [h1, h2] at h
        simp [bind, Except.bind] at h
        subst h
        have hx := IH x (by simp) s hsup hall.1 jx h1
        have hrest := ih (fun y hy => IH y (by simp [hy])) hall.2 jrest h2
        simp [deserializeElems, hx, hrest, bind, Except.bind]

/-- Tuple components round-trip position by position, for any reported
index and length bookkeeping. -/
theorem tuple_elems_rt :
    ∀ (xs : List SValue) (ss : List Shape), supportedAll ss = true → (∀ x ∈ xs, RT x) →
      hasShapeZip xs ss = true →
      ∀ js idx len, serializeElems xs = .ok js →
        deserializeTupleElems ss js idx len = .ok xs := by
  intro xs
  induction xs with
  | nil =>
    intro ss _ _ hzip js idx len h
    cases ss with
    | nil =>
      simp [serializeElems] at h
      subst h
      simp [deserializeTupleElems]
    | cons s ss2 => simp [hasShapeZip] at hzip
  | cons x rest ih =>
    intro ss hsup IH hzip js idx len h
    cases ss with
    | nil => simp [hasShapeZip] at hzip
    | cons s ss2 =>
      simp only [hasShapeZip, Bool.and_eq_true] at hzip
      simp only [supportedAll, Bool.and_eq_true] at hsup
      simp only [serializeElems] at h
      cases h1 : serialize x with
      | error e => rw [h1] at h; simp [bind, Except.bind] at h
      | ok jx =>
        cases h2 : serializeElems rest with
        | error e => rw [h1, h2] at h; simp [bind, Except.bind] at h
        | ok jrest =>
          rw [h1, h2] at h
          simp [bind, Except.bind] at h
          subst h
          have hx := IH x (by simp) s hsup.1 hzip.1 jx h1
          have hrest := ih ss2 hsup.2 (fun y hy => IH y (by simp [hy])) hzip.2 jrest
            (idx + 1) len h2
          simp [deserializeTupleElems, hx, hrest, bind, Except.bind]

/-- Map entries round-trip entrywise, keys and order preserved. -/
theorem map_entries_rt (s : Shape) (hsup : supported s = true) :
    ∀ (entries : List (String × SValue)), (∀ k v, (k, v) ∈ entries → RT v) →
      hasShapeVals entries s = true →
      ∀ js, serializeEntries entries = .ok js → deserializeMapEntries s js = .ok entries := by
  intro entries
  induction entries with
  | nil =>
    intro _ _ js h
    simp [serializeEntries] at h
    subst h
    simp [deserializeMapEntries]
  | cons e rest ih =>
    intro IH hvals js h
    obtain ⟨k, v⟩ := e
    simp only [hasShapeVals, Bool.and_eq_true] at hvals
    simp only [serializeEntries] at h
    cases h1 : serialize v with
    | error e2 => rw [h1] at h; simp [bind, Except.bind] at h
    | ok jv =>
      cases h2 : serializeEntries rest with
      | error e2 => rw [h1, h2] at h; simp [bind, Except.bind] at h
      | ok jrest =>
        rw [h1, h2] at h
        simp [bind, Except.bind] at h
        subst h
        have hv := IH k v (by simp) s hsup hvals.1 jv h1
        have hrest := ih (fun k2 v2 hm => IH k2 v2 (by simp [hm])) hvals.2 jrest h2
        simp [deserializeMapEntries, hv, hrest, bind, Except.bind]

/-- Looking up a declared field whose name differs from the object's
first key skips that first entry. -/
theorem deserializeField_cons_ne (name : String) (s : Shape) (k : String) (jv : JsValue)
    (jrest : List (String × JsValue)) (hne : (k == name) = false) :
    deserializeField name s ((k, jv) :: jrest) = deserializeField name s jrest := by
  simp [deserializeField, hne]

/-- Declared fields none of which is named `k` deserialize the same from
an object with or without a leading `k` entry (unknown-property skip). -/
theorem deserializeFields_skip :
    ∀ (fs : List (String × Shape)) (k : String) (jv : JsValue)
      (jrest : List (String × JsValue)),
      (fs.all fun p => !(p.1 == k)) = true →
      deserializeFields fs ((k, jv) :: jrest) = deserializeFields fs jrest := by
  intro fs
  induction fs with
  | nil => intro k jv jrest _; simp [deserializeFields]
  | cons f rest ih =>
    intro k jv jrest hall
    obtain ⟨name, s⟩ := f
    simp only [List.all_cons, Bool.and_eq_true, Bool.not_eq_true'] at hall
    have hkn : (k == name) = false := by
      rw [beq_eq_false_iff_ne]
      rw [beq_eq_false_iff_ne] at hall
      exact fun h2 => hall.1 h2.symm
    simp only [deserializeFields]
    rw [deserializeField_cons_ne name s k jv jrest hkn, ih k jv jrest]
    rw [List.all_eq_true]
    intro p hp
    rw [List.all_eq_true] at hall
    exact hall.2 p hp

/-- Struct fields round-trip: each declared field is found again by name
on the serialized object (distinct declared names make lookup hit the
field's own entry) and its value round-trips. -/
theorem fields_rt :
    ∀ (fields : List (String × SValue)) (fs : List (String × Shape)),
      keysNodup fs = true → supportedFields fs = true →
      (∀ k v, (k, v) ∈ fields → RT v) → hasShapeFields fields fs = true →
      ∀ js, serializeEntries fields = .ok js → deserializeFields fs js = .ok fields := by
  intro fields
  induction fields with
  | nil =>
    intro fs _ _ _ hsf js h
    cases fs with
    | nil =>
      simp [serializeEntries] at h
      subst h
      simp [deserializeFields]
    | cons f rest => simp [hasShapeFields] at hsf
  | cons e rest ih =>
    intro fs hnodup hsup IH hsf js h
    obtain ⟨k, v⟩ := e
    cases fs with
    | nil => simp [hasShapeFields] at hsf
    | cons f fsrest =>
      obtain ⟨k2, s⟩ := f
      simp only [hasShapeFields, Bool.and_eq_true] at hsf
      obtain ⟨⟨hkeq, hvs⟩, hsfrest⟩ := hsf
      rw [beq_iff_eq] at hkeq
      subst hkeq
      simp only [keysNodup, Bool.and_eq_true] at hnodup
      simp only [supportedFields, Bool.and_eq_true] at hsup
      simp only [serializeEntries] at h
      cases h1 : serialize v with
      | error e2 => rw [h1] at h; simp [bind, Except.bind] at h
      | ok jv =>
        cases h2 : serializeEntries rest with
        | error e2 => rw [h1, h2] at h; simp [bind, Except.bind] at h
        | ok jrest =>
          rw [h1, h2] at h
          simp [bind, Except.bind] at h
          subst h
          have hv : deserialize s jv = .ok v := IH k v (by simp) s hsup.1 hvs jv h1
          have hskip : deserializeFields fsrest ((k, jv) :: jrest) =
              deserializeFields fsrest jrest := by
            apply deserializeFields_skip
            rw [List.all_eq_true]
            intro p hp
            rcases hnodup with ⟨hno, _⟩
            simp only [Bool.not_eq_true', List.any_eq_false] at hno
            simp [hno p hp]
          have hrest := ih fsrest hnodup.2 hsup.2
            (fun k3 v3 hm => IH k3 v3 (by simp [hm])) hsfrest jrest h2
          simp [deserializeFields, deserializeField, hv, hskip, hrest, bind, Except.bind]

/-- Every structured value round-trips: by well-founded recursion on the
value, with the list lemmas supplying the elementwise inductive steps. -/
theorem rt_all (v : SValue) : RT v := by
  intro sh hsup hsh j hser
  cases v with
  | unit =>
    cases sh <;> simp [hasShape] at hsh
    simp [serialize] at hser
    subst hser
    simp [deserialize]
  | bool b =>
    cases sh <;> simp [hasShape] at hsh
    simp [serialize] at hser
    subst hser
    simp [deserialize]
  | int n =>
    cases sh <;> simp [hasShape] at hsh
    rename_i lo hi
    simp [serialize] at hser
    subst hser
    simp [deserialize, Rat.den_intCast, Rat.num_intCast, hsh.1, hsh.2]
  | float q =>
    cases sh <;> simp [hasShape] at hsh
    simp [serialize] at hser
    subst hser
    simp [deserialize]
  | char c =>
    cases sh <;> simp [hasShape] at hsh
    simp [serialize] at hser
    subst hser
    simp [deserialize, String.singleton]
  | str s2 =>
    cases sh <;> simp [hasShape] at hsh
    simp only [serialize] at hser
    split at hser
    · simp at hser
      subst hser
      simp [deserialize]
    · simp at hser
  | option o =>
    cases o with
    | none =>
      cases sh <;> simp [hasShape] at hsh
      simp [serialize] at hser
      subst hser
      simp [deserialize]
    | some w =>
      cases sh <;> simp [hasShape] at hsh
      rename_i s
      simp only [supported, Bool.and_eq_true] at hsup
      simp only [serialize] at hser
      have hnn := serialize_not_nullish w s hsup.1 hsh j hser
      have hrec := rt_all w s hsup.2 hsh j hser
      cases j <;>
        first
        | exact absurd rfl hnn.1
        | exact absurd rfl hnn.2
        | simp [deserialize, hrec, bind, Except.bind]
  | seq xs =>
    cases sh <;> simp [hasShape] at hsh
    rename_i s
    simp only [serialize] at hser
    cases h1 : serializeElems xs with
    | error e => rw [h1] at hser; simp [bind, Except.bind] at hser
    | ok js =>
      rw [h1] at hser
      simp [bind, Except.bind] at hser
      subst hser
      have hd := elems_rt s (by simpa [supported] using hsup) xs
        (fun x hx => rt_all x) hsh js h1
      simp [deserialize, hd, bind, Except.bind]
  | tuple xs =>
    cases sh <;> simp [hasShape] at hsh
    rename_i ss
    simp only [serialize] at hser
    cases h1 : serializeElems xs with
    | error e => rw [h1] at hser; simp [bind, Except.bind] at hser
    | ok js =>
      rw [h1] at hser
      simp [bind, Except.bind] at hser
      subst hser
      have hd := tuple_elems_rt xs ss (by simpa [supported] using hsup)
        (fun x hx => rt_all x) hsh js 0 js.length h1
      simp [deserialize, hd, bind, Except.bind]
  | map entries =>
    cases sh <;> simp [hasShape] at hsh
    rename_i s
    simp only [serialize] at hser
    cases h1 : serializeEntries entries with
    | error e => rw [h1] at hser; simp [bind, Except.bind] at hser
    | ok js =>
      rw [h1] at hser
      simp [bind, Except.bind] at hser
      subst hser
      have hd := map_entries_rt s (by simpa [supported] using hsup) entries
        (fun k w hkv => rt_all w) hsh.2 js h1
      simp [deserialize, hd, bind, Except.bind]
  | strct fields =>
    cases sh <;> simp [hasShape] at hsh
    rename_i fs
    simp only [supported, Bool.and_eq_true] at hsup
    simp only [serialize] at hser
    cases h1 : serializeEntries fields with
    | error e => rw [h1] at hser; simp [bind, Except.bind] at hser
    | ok js =>
      rw [h1] at hser
      simp [bind, Except.bind] at hser
      subst hser
      have hd := fields_rt fields fs hsup.1 hsup.2
        (fun k w hkv => rt_all w) hsh js h1
      simp [deserialize, hd, bind, Except.bind]
  | enumUnit name =>
    cases sh <;> simp [hasShape] at hsh
    rename_i variants
    split at hsh
    case _ hfv =>
      simp [serialize] at hser
      subst hser
      simp [deserialize, hfv]
    case _ => simp at hsh
  | enumNewtype name w =>
    cases sh <;> simp [hasShape] at hsh
    rename_i variants
    split at hsh
    case _ s hfv =>
      simp only [supported, Bool.and_eq_true] at hsup
      have hsupv := findVariant_supportedVariant variants hsup.2 name _ hfv
      simp only [supportedVariant] at hsupv
      simp only [serialize] at hser
      cases h1 : serialize w with
      | error e => rw [h1] at hser; simp [bind, Except.bind] at hser
      | ok jw =>
        rw [h1] at hser
        simp [bind, Except.bind] at hser
        subst hser
        have hrec := rt_all w s hsupv hsh jw h1
        simp [deserialize, deserializeEnumEntry_eq_find, hfv, deserializeVariantPayload,
          hrec, bind, Except.bind]
    case _ => simp at hsh
  | enumTuple name xs =>
    cases sh <;> simp [hasShape] at hsh
    rename_i variants
    split at hsh
    case _ ss hfv =>
      simp only [supported, Bool.and_eq_true] at hsup
      have hsupv := findVariant_supportedVariant variants hsup.2 name _ hfv
      simp only [supportedVariant] at hsupv
      simp only [serialize] at hser
      cases h1 : serializeElems xs with
      | error e => rw [h1] at hser; simp [bind, Except.bind] at hser
      | ok js =>
        rw [h1] at hser
        simp [bind, Except.bind] at hser
        subst hser
        have hd := tuple_elems_rt xs ss hsupv (fun x hx => rt_all x) hsh js 0 js.length h1
        simp [deserialize, deserializeEnumEntry_eq_find, hfv, deserializeVariantPayload,
          hd, bind, Except.bind]
    case _ => simp at hsh
  | enumStruct name fields =>
    cases sh <;> simp [hasShape] at hsh
    rename_i variants
    split at hsh
    case _ fs hfv =>
      simp only [supported, Bool.and_eq_true] at hsup
      have hsupv := findVariant_supportedVariant variants hsup.2 name _ hfv
      simp only [supportedVariant, Bool.and_eq_true] at hsupv
      simp only [serialize] at hser
      cases h1 : serializeEntries fields with
      | error e => rw [h1] at hser; simp [bind, Except.bind] at hser
      | ok js =>
        rw [h1] at hser
        simp [bind, Except.bind] at hser
        subst hser
        have hd := fields_rt fields fs hsupv.1 hsupv.2
          (fun k w hkv => rt_all w) hsh js h1
        simp [deserialize, deserializeEnumEntry_eq_find, hfv, deserializeVariantPayload,
          hd, bind, Except.bind]
    case _ => simp at hsh
termination_by sizeOf v
decreasing_by
  all_goals simp_wf
  all_goals subst_vars
  all_goals
    first
    | (have hlt := List.sizeOf_lt_of_mem hx
       simp at hlt ⊢
       omega)
    | (have hlt := List.sizeOf_lt_of_mem hkv
       simp at hlt ⊢
       omega)
    | (simp
       try omega)

/-- C2: the shared error type is a closed enumeration: every `Error` value
is one of exactly the eleven listed variants — `StringTooLong`,
`UnableToCoerce`, `EmptyString`, `StringTooLongForChar`, `ExpectingNull`,
`InvalidKeyType`, `ArrayIndexOutOfBounds`, `Js`, `CastError`, `Serde` and
`NotImplemented` — and, as the disjunction exhibits, the only open-ended
payloads are the free-form message of `Serde` and the wrapped host
exception of `Js` (the remaining payloads are the fixed lengths, index,
key and static type/variant names of the coercion failures). -/
theorem error_closed_taxonomy (e : Error) :
    (∃ len, e = .StringTooLong len) ∨
    (∃ t, e = .UnableToCoerce t) ∨
    e = .EmptyString ∨
    (∃ len, e = .StringTooLongForChar len) ∨
    e = .ExpectingNull ∨
    (∃ key, e = .InvalidKeyType key) ∨
    (∃ index length, e = .ArrayIndexOutOfBounds index length) ∨
    (∃ t, e = .Js t) ∨
    e = .CastError ∨
    (∃ msg, e = .Serde msg) ∨
    (∃ name, e = .NotImplemented name) := by
  cases e <;> simp

/-- C3: `ResultExt::throw` maps `Ok(t)` to the host success case carrying
`t` unchanged, and `Err(e)` to a host-level thrown exception whose message
is exactly the error's `Display` rendering. -/
theorem resultExt_throw_spec :
    (∀ (T : Type) (t : T), ResultExt.throw (.ok t) = (.ok t : NeonResult T)) ∧
    (∀ (T : Type) (e : Error),
      ResultExt.throw (.error e : Except Error T) = .error ⟨e.display⟩) := by
  constructor
  · intro T t
    rfl
  · intro T e
    rfl

/-- C4: both framework customization hooks — the serialization-side
`ser::Error::custom` and the deserialization-side `de::Error::custom` —
build the `Serde` variant with `msg` equal to the display rendering of
the argument, and the two hooks agree on every input. -/
theorem error_custom_spec (T : Type) (displayFn : T → String) (m : T) :
    Error.serCustom displayFn m = .Serde (displayFn m) ∧
    Error.deCustom displayFn m = .Serde (displayFn m) ∧
    Error.serCustom displayFn m = Error.deCustom displayFn m :=
  ⟨rfl, rfl, rfl⟩

/-- C5: converting a host-runtime exception into the shared error type via
`From<Throw>` yields the `Js` variant wrapping that exception, so host
exceptions flow through the same `Error` channel as coercion failures. -/
theorem error_fromThrow_spec (t : Throw) : Error.fromThrow t = .Js t :=
  rfl

/-- C10: when `Err(Js { throw })` reaches the host boundary through
`ResultExt::throw`, the original pending exception is not re-raised;
instead a fresh host error is thrown whose message is the string
`"JS exception: "` followed by the display rendering of the wrapped
throw. -/
theorem resultExt_throw_js_spec (T : Type) (t : Throw) :
    ResultExt.throw (.error (.Js t) : Except Error T) =
      .error ⟨"JS exception: " ++ t.display⟩ :=
  rfl

/-- C1: round-trip identity — for every representable structured value
`v` of a supported shape (`hasShape v sh` with `supported sh`), if
serialization succeeds then deserializing the result at that shape yields
`v` back exactly: `from_value (to_value v) = Ok(v)`. -/
theorem roundtrip_spec (v : SValue) (sh : Shape) (hsup : supported sh = true)
    (hsh : hasShape v sh = true) (j : JsValue) (hser : serialize v = .ok j) :
    deserialize sh j = .ok v :=
  rt_all v sh hsup hsh j hser

/-- Witness for C1 at the spec's own §8 record
`{a: 1u32, b: [2.0, 3.0, 4.0], c: "a string"}`: it serializes to
`{a:1, b:[2,3,4], c:"a string"}` and deserializes back identically. -/
theorem roundtrip_spec_witness :
    deserialize (.strct [("a", .int 0 4294967295), ("b", .seq .float), ("c", .str)])
        (.object [("a", .number 1), ("b", .array [.number 2, .number 3, .number 4]),
          ("c", .string "a string")]) =
      .ok (.strct [("a", .int 1), ("b", .seq [.float 2, .float 3, .float 4]),
        ("c", .str "a string")]) :=
  roundtrip_spec
    (.strct [("a", .int 1), ("b", .seq [.float 2, .float 3, .float 4]), ("c", .str "a string")])
    (.strct [("a", .int 0 4294967295), ("b", .seq .float), ("c", .str)])
    (by simp +decide [supported, supportedFields, keysNodup])
    (by simp +decide [hasShape, hasShapeFields, hasShapeAll])
    (.object [("a", .number 1), ("b", .array [.number 2, .number 3, .number 4]),
      ("c", .string "a string")])
    (by simp +decide [serialize, serializeElems, serializeEntries, maxStringLength,
      bind, Except.bind])

/-- C7: the boolean coercion matrix of `deserialize_bool` — an external
boolean passes through, `null`/`undefined` coerce to `false`, a number
coerces by nonzero-is-true (`0 → false`, `1 → true`), and every other
external kind (string, array, object — e.g. the string `"x"`) fails with
`UnableToCoerce { to_type: "bool" }`. -/
theorem deserialize_bool_spec :
    (∀ b, deserialize .bool (.boolean b) = .ok (.bool b)) ∧
    deserialize .bool .null = .ok (.bool false) ∧
    deserialize .bool .undefined = .ok (.bool false) ∧
    (∀ q : Rat, deserialize .bool (.number q) = .ok (.bool (if q = 0 then false else true))) ∧
    deserialize .bool (.number 0) = .ok (.bool false) ∧
    deserialize .bool (.number 1) = .ok (.bool true) ∧
    (∀ s, deserialize .bool (.string s) = .error (.UnableToCoerce "bool")) ∧
    (∀ elems, deserialize .bool (.array elems) = .error (.UnableToCoerce "bool")) ∧
    (∀ entries, deserialize .bool (.object entries) = .error (.UnableToCoerce "bool")) := by
  refine ⟨?_, ?_, ?_, ?_, ?_, ?_, ?_, ?_, ?_⟩ <;>
    intros <;> simp +decide [deserialize]

/-- C8: char deserialization needs a one-character string — the empty
string fails `EmptyString`, a string of length `n > 1` fails
`StringTooLongForChar { len: n }` (`"ab"` reports `len: 2`), and a
one-character string succeeds with that character. -/
theorem deserialize_char_spec :
    deserialize .char (.string "") = .error .EmptyString ∧
    (∀ s : String, 1 < s.length →
      deserialize .char (.string s) = .error (.StringTooLongForChar s.length)) ∧
    deserialize .char (.string "ab") = .error (.StringTooLongForChar 2) ∧
    (∀ c, deserialize .char (.string (String.singleton c)) = .ok (.char c)) ∧
    deserialize .char (.string "a") = .ok (.char 'a') := by
  refine ⟨?_, ?_, ?_, ?_, ?_⟩
  · simp [deserialize]
  · intro s hs
    obtain ⟨data⟩ := s
    match data with
    | [] => simp [String.length] at hs
    | [c] => simp [String.length] at hs
    | a :: b :: rest => simp [deserialize]
  · simp +decide [deserialize]
  · intro c
    simp [deserialize, String.singleton]
  · simp +decide [deserialize]

/-- Witness for C8's quantified clause at the concrete string `"abc"`
(length 3 > 1). -/
theorem deserialize_char_spec_witness :
    1 < ("abc" : String).length ∧
      deserialize .char (.string "abc") = .error (.StringTooLongForChar ("abc" : String).length) :=
  ⟨by decide, deserialize_char_spec.2.1 "abc" (by decide)⟩

/-- C9: non-unit enum deserialization from an external object — an object
with exactly one own key selects the variant named by that key and
deserializes the associated value as its payload (shown for a newtype
variant); an object whose number of own keys differs from one fails with
`InvalidKeyType` (carrying the spec's empty-key report), as does every
non-string, non-object external kind; success from an object forces
exactly one key. -/
theorem deserialize_enum_spec :
    (∀ variants entries, entries.length ≠ 1 →
      deserialize (.enum variants) (.object entries) = .error (.InvalidKeyType "")) ∧
    (∀ variants, deserialize (.enum variants) .null = .error (.InvalidKeyType "")) ∧
    (∀ variants, deserialize (.enum variants) .undefined = .error (.InvalidKeyType "")) ∧
    (∀ variants b, deserialize (.enum variants) (.boolean b) = .error (.InvalidKeyType "")) ∧
    (∀ variants q, deserialize (.enum variants) (.number q) = .error (.InvalidKeyType "")) ∧
    (∀ variants elems, deserialize (.enum variants) (.array elems) =
      .error (.InvalidKeyType "")) ∧
    (∀ variants k pj s v, findVariant k variants = some (.newtype s) →
      deserialize s pj = .ok v →
      deserialize (.enum variants) (.object [(k, pj)]) = .ok (.enumNewtype k v)) ∧
    (∀ variants entries r, deserialize (.enum variants) (.object entries) = .ok r →
      entries.length = 1) := by
  refine ⟨?_, ?_, ?_, ?_, ?_, ?_, ?_, ?_⟩
  · intro variants entries hlen
    match entries with
    | [] => simp [deserialize]
    | [e] => simp at hlen
    | e1 :: e2 :: rest => simp [deserialize]
  · intros; simp [deserialize]
  · intros; simp [deserialize]
  · intros; simp [deserialize]
  · intros; simp [deserialize]
  · intros; simp [deserialize]
  · intro variants k pj s v hfind hpayload
    simp [deserialize, deserializeEnumEntry_eq_find, hfind, deserializeVariantPayload,
      hpayload, bind, Except.bind]
  · intro variants entries r hok
    match entries with
    | [] => simp [deserialize] at hok
    | [e] => rfl
    | e1 :: e2 :: rest => simp [deserialize] at hok

/-- Witness for C9's quantified clauses: a two-key object for the
`Circle` variant fails `InvalidKeyType`, and `{"Circle": 1.5}` selects
the newtype variant and deserializes its payload. -/
theorem deserialize_enum_spec_witness :
    ([("Circle", JsValue.number (3 / 2)), ("Extra", JsValue.boolean true)].length ≠ 1 ∧
      deserialize (.enum [("Circle", .newtype .float)])
          (.object [("Circle", .number (3 / 2)), ("Extra", .boolean true)]) =
        .error (.InvalidKeyType "")) ∧
    deserialize (.enum [("Circle", .newtype .float)])
        (.object [("Circle", .number (3 / 2))]) =
      .ok (.enumNewtype "Circle" (.float (3 / 2))) :=
  ⟨⟨by decide,
    deserialize_enum_spec.1 [("Circle", .newtype .float)]
      [("Circle", .number (3 / 2)), ("Extra", .boolean true)] (by decide)⟩,
   deserialize_enum_spec.2.2.2.2.2.2.1 [("Circle", .newtype .float)] "Circle"
      (.number (3 / 2)) .float (.float (3 / 2)) (by simp [findVariant])
      (by simp [deserialize])⟩

/-- A base-ten digit character is never a newline. -/
theorem digitChar_ne_newline (m : Nat) : Nat.digitChar m ≠ '\n' := by
  rcases lt_or_ge m 16 with h | h
  · interval_cases m <;> decide
  · have h16 : Nat.digitChar m = '*' := by
      unfold Nat.digitChar
      rw [if_neg (by omega : ¬ (m = 0)), if_neg (by omega : ¬ (m = 1)),
        if_neg (by omega : ¬ (m = 2)), if_neg (by omega : ¬ (m = 3)),
        if_neg (by omega : ¬ (m = 4)), if_neg (by omega : ¬ (m = 5)),
        if_neg (by omega : ¬ (m = 6)), if_neg (by omega : ¬ (m = 7)),
        if_neg (by omega : ¬ (m = 8)), if_neg (by omega : ¬ (m = 9)),
        if_neg (by omega : ¬ (m = 10)), if_neg (by omega : ¬ (m = 11)),
        if_neg (by omega : ¬ (m = 12)), if_neg (by omega : ¬ (m = 13)),
        if_neg (by omega : ¬ (m = 14)), if_neg (by omega : ¬ (m = 15))]
    rw [h16]
    decide

/-- Running `Nat.toDigitsCore` over newline-free accumulated digits yields only
newline-free characters. -/
theorem toDigitsCore_ne_newline :
    ∀ (fuel n : Nat) (ds : List Char), (∀ c ∈ ds, c ≠ '\n') →
      ∀ c ∈ Nat.toDigitsCore 10 fuel n ds, c ≠ '\n' := by
  intro fuel
  induction fuel with
  | zero =>
    intro n ds hds c hc
    simp only [Nat.toDigitsCore] at hc
    exact hds c hc
  | succ fuel ih =>
    intro n ds hds c hc
    simp only [Nat.toDigitsCore] at hc
    split at hc
    · rcases List.mem_cons.mp hc with h | h
      · subst h
        exact digitChar_ne_newline _
      · exact hds c h
    · refine ih _ _ ?_ c hc
      intro c2 hc2
      rcases List.mem_cons.mp hc2 with h | h
      · subst h
        exact digitChar_ne_newline _
      · exact hds c2 h

/-- The decimal rendering of a natural number contains no newline. -/
theorem natRepr_ne_newline (n : Nat) : ∀ c ∈ (toString n).data, c ≠ '\n' := by
  intro c hc
  exact toDigitsCore_ne_newline (n + 1) n [] (by simp) c hc

/-- C6: each error's user-visible rendering is a single descriptive line
with kind-specific content carrying the offending datum: the length for
`StringTooLong` and `StringTooLongForChar`, the index and the length for
`ArrayIndexOutOfBounds`, the key for `InvalidKeyType`, the target type
name for `UnableToCoerce`, the message for `Serde` and the name for
`NotImplemented` each occur verbatim in the rendering; and the rendering
contains no newline (for the wrapping variants, provided the wrapped
free-form payload itself has none — the fixed template text never adds
one). -/
theorem error_display_spec :
    (∀ len, ∃ a b, (Error.StringTooLong len).display.data =
      a ++ (toString len).data ++ b) ∧
    (∀ t, ∃ a b, (Error.UnableToCoerce t).display.data = a ++ t.data ++ b) ∧
    (∀ len, ∃ a b, (Error.StringTooLongForChar len).display.data =
      a ++ (toString len).data ++ b) ∧
    (∀ key, ∃ a b, (Error.InvalidKeyType key).display.data = a ++ key.data ++ b) ∧
    (∀ index length, ∃ a b c,
      (Error.ArrayIndexOutOfBounds index length).display.data =
        a ++ (toString index).data ++ b ++ (toString length).data ++ c) ∧
    (∀ msg, ∃ a b, (Error.Serde msg).display.data = a ++ msg.data ++ b) ∧
    (∀ name, ∃ a b, (Error.NotImplemented name).display.data = a ++ name.data ++ b) ∧
    (∀ len, '\n' ∉ (Error.StringTooLong len).display.data) ∧
    (∀ t, '\n' ∉ t.data → '\n' ∉ (Error.UnableToCoerce t).display.data) ∧
    '\n' ∉ Error.EmptyString.display.data ∧
    (∀ len, '\n' ∉ (Error.StringTooLongForChar len).display.data) ∧
    '\n' ∉ Error.ExpectingNull.display.data ∧
    (∀ key, '\n' ∉ key.data → '\n' ∉ (Error.InvalidKeyType key).display.data) ∧
    (∀ index length, '\n' ∉ (Error.ArrayIndexOutOfBounds index length).display.data) ∧
    (∀ t, '\n' ∉ t.display.data → '\n' ∉ (Error.Js t).display.data) ∧
    '\n' ∉ Error.CastError.display.data ∧
    (∀ msg, '\n' ∉ msg.data → '\n' ∉ (Error.Serde msg).display.data) ∧
    (∀ name, '\n' ∉ name.data → '\n' ∉ (Error.NotImplemented name).display.data) := by
  refine ⟨?_, ?_, ?_, ?_, ?_, ?_, ?_, ?_, ?_, ?_, ?_, ?_, ?_, ?_, ?_, ?_, ?_, ?_⟩
  · intro len
    exact ⟨"String too long for NodeJS, len: ".data, [], by simp [Error.display]⟩
  · intro t
    exact ⟨"Unable to coerce value to type: ".data, [], by simp [Error.display]⟩
  · intro len
    exact ⟨"String too long to be a char expected len: 1, got ".data, [],
      by simp [Error.display]⟩
  · intro key
    exact ⟨"Error when deserializing enum, found key: '".data, "'".data,
      by simp [Error.display]⟩
  · intro index length
    exact ⟨"ArrayIndexOutOfBounds: attempted access to (".data, ") when size: (".data,
      ")".data, by simp [Error.display]⟩
  · intro msg
    exact ⟨"Error occurred while (de)serializing: ".data, [], by simp [Error.display]⟩
  · intro name
    exact ⟨"Deserialization not implemented for ".data, [], by simp [Error.display]⟩
  · intro len
    simp only [Error.display, String.data_append, List.mem_append, not_or]
    exact ⟨by decide, fun h => natRepr_ne_newline len '\n' h rfl⟩
  · intro t ht
    simp only [Error.display, String.data_append, List.mem_append, not_or]
    exact ⟨by decide, ht⟩
  · decide
  · intro len
    simp only [Error.display, String.data_append, List.mem_append, not_or]
    exact ⟨by decide, fun h => natRepr_ne_newline len '\n' h rfl⟩
  · decide
  · intro key hkey
    simp only [Error.display, String.data_append, List.mem_append, not_or]
    exact ⟨⟨by decide, hkey⟩, by decide⟩
  · intro index length
    simp only [Error.display, String.data_append, List.mem_append, not_or]
    refine ⟨⟨⟨⟨by decide, fun h => natRepr_ne_newline index '\n' h rfl⟩, by decide⟩,
      fun h => natRepr_ne_newline length '\n' h rfl⟩, by decide⟩
  · intro t ht
    simp only [Error.display, String.data_append, List.mem_append, not_or]
    exact ⟨by decide, ht⟩
  · decide
  · intro msg hmsg
    simp only [Error.display, String.data_append, List.mem_append, not_or]
    exact ⟨by decide, hmsg⟩
  · intro name hname
    simp only [Error.display, String.data_append, List.mem_append, not_or]
    exact ⟨by decide, hname⟩

/-- Witness for C6's conditional single-line clauses at concrete
newline-free payloads. -/
theorem error_display_spec_witness :
    ('\n' ∉ ("f64" : String).data ∧ '\n' ∉ (Error.UnableToCoerce "f64").display.data) ∧
    ('\n' ∉ ("oops" : String).data ∧ '\n' ∉ (Error.Serde "oops").display.data) :=
  ⟨⟨by decide, error_display_spec.2.2.2.2.2.2.2.2.1 "f64" (by decide)⟩,
   ⟨by decide, error_display_spec.2.2.2.2.2.2.2.2.2.2.2.2.2.2.2.2.1 "oops" (by decide)⟩⟩

end NeonSerde
